import Mathlib

/-!
Verification of the AirCat audio core (src/cache.c and src/outputs/output_alsa.c)
against its natural-language specification.

The C code is shallowly embedded: the sample buffer is a `List Int` of frames
(one entry per frame; the byte arithmetic `* 4` of the source is dropped since
frames are the unit of every length field), the linked format list is a
`List cache_format` (head = `fmt_first`, last = `fmt_last`), and unsigned C
integers are `Nat` (with an explicit `% 2 ^ 64` where a 64-bit wrap could
matter).  The producer/consumer interleaving is modelled by explicit state
passing: one `cache_produce` models the body that both `cache_read_thread`
(cache.c lines 223-246) and the pull-mode refill (cache.c lines 331-355)
execute on a delivered batch, and `cache_read` models the consumer entry point
(cache.c lines 263-359).  The state of the coarse producer mutex `input_lock`
is carried as a boolean field so that lock acquisition/release on each path
can be stated.
-/

namespace AirCat

/-- Audio format descriptor `struct a_format` (spec section 3): a pair of
samplerate and channel count, with (0,0) the "unspecified" sentinel. -/
structure a_format where
  samplerate : Nat
  channels : Nat
  deriving DecidableEq, Repr

/-- The sentinel initializer `A_FORMAT_INIT`: format (0,0), "unspecified". -/
def A_FORMAT_INIT : a_format := ⟨0, 0⟩

/-- Modelled from the spec: `format_cmp` lives in the format header, which is
not under src/.  Per spec section 3, equality is field-wise and a zero field
compares unequal to any nonzero field; the function returns 0 exactly on equal
formats (callers only test the result against 0). -/
def format_cmp (a b : a_format) : Int :=
  if a.samplerate = b.samplerate ∧ a.channels = b.channels then 0 else 1

/-- Format segment `struct cache_format` (cache.c lines 33-37): a format
together with the stored frame count `len` (the residual of the previous
segment, snapshotted by `cache_put_format`). -/
structure cache_format where
  fmt : a_format
  len : Nat
  deriving DecidableEq, Repr

/-- Cache state `struct cache_handle` (cache.c lines 39-61).  `data` is the
list of buffered frames (`buffer`/`len` of the source; `len` is kept as a
separate field exactly as the source keeps it, updated in step with the
buffer).  `fmts` is the `fmt_first .. fmt_last` singly-linked list.
`input_locked` is the state of the producer-side mutex `input_lock`.
`hw` is a ghost history bit used only to state the spec invariant
"high-water mark `len == size` was reached since the last drain to empty":
it is set exactly where the source sets `is_ready = 1` (the cache became
full) and cleared exactly where the buffer drains to empty. -/
structure cache_handle where
  use_thread : Bool
  size : Nat
  data : List Int
  len : Nat
  is_ready : Bool
  fmts : List cache_format
  fmt_len : Nat
  input_locked : Bool
  hw : Bool
  deriving DecidableEq, Repr

/-- Initial cache state built by `cache_open` (cache.c lines 65-110); the
source rejects `size == 0`, so theorems only quantify over positive sizes. -/
def cache_open (size : Nat) (use_thread : Bool) : cache_handle :=
  { use_thread := use_thread, size := size, data := [], len := 0,
    is_ready := false, fmts := [], fmt_len := 0, input_locked := false,
    hw := false }

/-- `cache_put_format` (cache.c lines 147-172): append a segment carrying the
incoming format and the current `fmt_len` snapshot at the tail, then reset
`fmt_len` to 0.  (Allocation failure is not modelled; both call sites ignore
the return value anyway.) -/
def cache_put_format (h : cache_handle) (fmt : a_format) : cache_handle :=
  { h with fmts := h.fmts ++ [⟨fmt, h.fmt_len⟩], fmt_len := 0 }

/-- The producer-rule test (cache.c lines 235-237 and 344-346): a new segment
is appended when the list is empty (`fmt_last == NULL`), or when the incoming
format is nontrivial and differs from the tail segment's format. -/
def cache_need_new_fmt (h : cache_handle) (in_fmt : a_format) : Bool :=
  match h.fmts.getLast? with
  | none => true
  | some lf =>
      (in_fmt.samplerate != 0 || in_fmt.channels != 0) &&
        format_cmp in_fmt lf.fmt != 0

/-- One producer batch delivery of `input` frames under format `in_fmt`: the
common body of `cache_read_thread` (cache.c lines 226-243) and of the
pull-mode refill (cache.c lines 341-352).  The copy is clamped to the free
tail (`in_size = min(size - len, available)`), `len` grows first, then the
format list is updated per the producer rule and `fmt_len` accumulates the
copied frames; the cache becomes ready (and the ghost high-water bit is set)
when `len` reaches `size`. -/
def cache_produce (h : cache_handle) (input : List Int) (in_fmt : a_format) :
    cache_handle :=
  let in_size := min (h.size - h.len) input.length
  let h1 := { h with data := h.data ++ input.take in_size,
                     len := h.len + in_size }
  let h2 := if cache_need_new_fmt h1 in_fmt then cache_put_format h1 in_fmt
            else h1
  let h3 := { h2 with fmt_len := h2.fmt_len + in_size }
  if h3.len = h3.size then { h3 with is_ready := true, hw := true } else h3

/-- Result of the locked consumer section of `cache_read`. -/
structure core_result where
  cache : cache_handle
  nread : Nat
  out_fmt : Option a_format
  taken : List Int
  deriving DecidableEq, Repr

/-- The mutex-protected consumer section of `cache_read` (cache.c lines
276-322).  When the cache is not ready nothing happens and 0 frames are
returned.  Otherwise the request is clamped to `len`; if the format list is
nonempty the head format is copied out, and if a second segment exists whose
stored `len` is smaller than the clamped request, the read is shortened to
that boundary and the head segment is dropped; the second segment's stored
`len` (or, with a single segment, `fmt_len`) is then decremented by the frame
count actually read.  The frames are taken from the front of the buffer and
the rest shifted down; `is_ready` (and the ghost high-water bit) is cleared
when the buffer drains to empty. -/
def cache_read_core (h : cache_handle) (reqSize : Nat) : core_result :=
  if h.is_ready then
    let size0 := min reqSize h.len
    let step : Nat × List cache_format × Nat × Option a_format :=
      match h.fmts with
      | [] => (size0, [], h.fmt_len, none)
      | [f1] => (size0, [f1], h.fmt_len - size0, some f1.fmt)
      | f1 :: f2 :: rest =>
          if f2.len < size0 then
            (f2.len, { f2 with len := f2.len - f2.len } :: rest, h.fmt_len,
             some f1.fmt)
          else
            (size0, f1 :: { f2 with len := f2.len - size0 } :: rest,
             h.fmt_len, some f1.fmt)
    let n := step.1
    let len1 := h.len - n
    { cache := { h with data := h.data.drop n, len := len1,
                        fmts := step.2.1, fmt_len := step.2.2.1,
                        is_ready := if len1 = 0 then false else h.is_ready,
                        hw := if len1 = 0 then false else h.hw },
      nread := n, out_fmt := step.2.2.2, taken := h.data.take n }
  else
    { cache := h, nread := 0, out_fmt := none, taken := [] }

/-- Result of a full `cache_read` call: final cache state, the `int` return
value (-1 on end-of-stream with an empty cache), the format written through
the `fmt` out-parameter (if any), and the frames copied into the caller's
buffer. -/
structure read_result where
  cache : cache_handle
  ret : Int
  out_fmt : Option a_format
  taken : List Int
  deriving DecidableEq, Repr

/-- Consumer entry point `cache_read` (cache.c lines 263-359).  After the
locked section, in pull mode only (`use_thread` false) and only while the
buffer has free space, the consumer try-acquires `input_lock` and performs an
opportunistic refill through the input callback.  The callback invocation is
modelled by its observables: `cbRet` (its return value), `cbData` (the frames
it delivered) and `cbFmt` (the format it reported).  Faithful to the source,
the negative-callback paths (lines 335-340) return without releasing
`input_lock`, while the successful refill path releases it (line 355). -/
def cache_read (h : cache_handle) (reqSize : Nat) (cbRet : Int)
    (cbData : List Int) (cbFmt : a_format) : read_result :=
  let c := cache_read_core h reqSize
  let h1 := c.cache
  if h1.use_thread = false ∧ h1.len < h1.size then
    if h1.input_locked then
      { cache := h1, ret := c.nread, out_fmt := c.out_fmt, taken := c.taken }
    else
      let hL := { h1 with input_locked := true }
      if cbRet < 0 then
        if hL.len = 0 then
          { cache := hL, ret := -1, out_fmt := c.out_fmt, taken := c.taken }
        else
          { cache := hL, ret := c.nread, out_fmt := c.out_fmt,
            taken := c.taken }
      else
        let h2 := cache_produce hL (cbData.take cbRet.toNat) cbFmt
        { cache := { h2 with input_locked := false }, ret := c.nread,
          out_fmt := c.out_fmt, taken := c.taken }
  else
    { cache := h1, ret := c.nread, out_fmt := c.out_fmt, taken := c.taken }

/-- `cache_flush` (cache.c lines 361-390): clears `is_ready` and `len`, frees
the whole format list — and leaves `fmt_len` untouched (the source never
resets it here).  The ghost high-water bit is cleared since the buffer is
drained to empty.  The thread-side `flush` flag only affects the producer
thread's private staging buffer and is not part of the cache state modelled
here. -/
def cache_flush (h : cache_handle) : cache_handle :=
  { h with is_ready := false, len := 0, data := [], fmts := [], hw := false }

/-!
Invariants of spec section 8 for claim C4.  `claimedCacheInv` is the exact
conjunction the spec asserts "∀ time"; `cacheInvFull` strengthens it with the
auxiliary facts needed for induction (the head segment's stored length is 0,
`fmt_len` is 0 while the list is empty, the high-water bit implies a nonempty
buffer, and the open-time guarantee `0 < size`).
-/

/-- Sum of the stored lengths of all format segments in the cache. -/
def cache_segSum (h : cache_handle) : Nat := (h.fmts.map cache_format.len).sum

/-- The invariant conjunction claimed by the spec (section 8): `len ≤ size`,
`is_ready` holds iff the buffer is nonempty and the high-water mark was
reached since the last drain to empty, and the stored segment lengths plus
`fmt_len` add up to `len`. -/
def claimedCacheInv (h : cache_handle) : Prop :=
  h.len ≤ h.size ∧
  (h.is_ready = true ↔ (0 < h.len ∧ h.hw = true)) ∧
  cache_segSum h + h.fmt_len = h.len

instance (h : cache_handle) : Decidable (claimedCacheInv h) := by
  unfold claimedCacheInv; infer_instance

/-- Inductive strengthening of `claimedCacheInv`. -/
def cacheInvFull (h : cache_handle) : Prop :=
  0 < h.size ∧ claimedCacheInv h ∧
  (∀ f, h.fmts.head? = some f → f.len = 0) ∧
  (h.fmts = [] → h.fmt_len = 0) ∧
  (h.hw = true → 0 < h.len)

/-- Cache states reachable through the operations exactly as the source
implements them: open, producer batch delivery, consumer read (either mode,
with any callback behaviour), and unrestricted flush. -/
inductive cacheReachCode : cache_handle → Prop where
  | init (size : Nat) (h0 : 0 < size) (ut : Bool) :
      cacheReachCode (cache_open size ut)
  | produce {h : cache_handle} (input : List Int) (f : a_format) :
      cacheReachCode h → cacheReachCode (cache_produce h input f)
  | read {h : cache_handle} (req : Nat) (cbRet : Int) (cbData : List Int)
      (cbFmt : a_format) :
      cacheReachCode h → cacheReachCode (cache_read h req cbRet cbData cbFmt).cache
  | flush {h : cache_handle} :
      cacheReachCode h → cacheReachCode (cache_flush h)

/-- Cache states reachable when `cache_flush` is only invoked at instants
where `fmt_len = 0` (the restriction forced by the `cache_flush`
counterexample of claim C4). -/
inductive cacheReach : cache_handle → Prop where
  | init (size : Nat) (h0 : 0 < size) (ut : Bool) :
      cacheReach (cache_open size ut)
  | produce {h : cache_handle} (input : List Int) (f : a_format) :
      cacheReach h → cacheReach (cache_produce h input f)
  | read {h : cache_handle} (req : Nat) (cbRet : Int) (cbData : List Int)
      (cbFmt : a_format) :
      cacheReach h → cacheReach (cache_read h req cbRet cbData cbFmt).cache
  | flush {h : cache_handle} :
      cacheReach h → h.fmt_len = 0 → cacheReach (cache_flush h)

/-!
Output stream and mixer models (src/outputs/output_alsa.c).
-/

/-- Per-stream mutable fields of `struct output_stream` (output_alsa.c lines
50-72) that the claims refer to.  The cache and resampler handles are kept
abstract where needed (they are opaque collaborators of the stream record). -/
structure output_stream where
  is_playing : Bool
  end_of_stream : Bool
  played : Nat
  abort : Bool
  volume : Nat
  buffering : Bool
  deriving DecidableEq, Repr

/-- The stream-state effect of `output_alsa_abort_stream` (output_alsa.c lines
389-415): pause the stream and set the abort flag.  (The function also locks
the cache's `input_lock` and returns a played-time figure; only the flag
updates matter to claim C10, and no other operation ever clears `abort`.) -/
def output_alsa_abort_stream (s : output_stream) : output_stream :=
  { s with is_playing := false, abort := true }

/-- `output_alsa_write_stream` (output_alsa.c lines 269-284): under the output
mutex, forward the buffer to `resample_write` unless the stream is aborted, in
which case the initial `ret = 0` is returned untouched.  The resampler (and
everything it feeds, in particular the stream's cache in push-mode wiring) is
abstracted as a state `res : ρ` transformed by the collaborator function
`resample_write`, which is declared out of scope by the spec (section 1). -/
def output_alsa_write_stream {ρ : Type} (resample_write : ρ → List Int → a_format → ρ × Int)
    (s : output_stream) (res : ρ) (buf : List Int) (fmt : a_format) :
    output_stream × ρ × Int :=
  if s.abort = true then (s, res, 0)
  else
    let r := resample_write res buf fmt
    (s, r.1, r.2)

/-- `output_alsa_restore_stream` (output_alsa.c lines 417-428): the restored
raw sample counter `played = value * samplerate * channels / 1000`, computed
in `uint64_t` arithmetic (hence the explicit `% 2 ^ 64` after each product). -/
def output_alsa_restore_stream (samplerate channels value : Nat) : Nat :=
  value * samplerate % 2 ^ 64 * channels % 2 ^ 64 / 1000

/-- The `OUTPUT_STREAM_PLAYED` branch of `output_alsa_get_status_stream`
(output_alsa.c lines 344-345): report `played * 1000 / samplerate / channels`
in `uint64_t` arithmetic. -/
def output_alsa_get_status_played (samplerate channels played : Nat) : Nat :=
  played * 1000 % 2 ^ 64 / samplerate / channels

/-- Integer-mode `output_alsa_vol` (output_alsa.c lines 494-501): scale the
sample by `v / vmax` with the product widened to 64 bits and divided with C
truncation-toward-zero semantics (`Int.tdiv`).  `vmax` stands for
`OUTPUT_VOLUME_MAX`, whose numeric value lives in a header not under src/;
for `|x| ≤ 2^31` and `v ≤ vmax < 2^32` the 64-bit product cannot wrap, so
plain integers model the `int64_t` computation exactly. -/
def output_alsa_vol (x v vmax : Int) : Int := Int.tdiv (x * v) vmax

/-- Integer-mode `output_alsa_add` (output_alsa.c lines 503-521): 64-bit sum
clamped to `[INT32_MIN, INT32_MAX]` (for summands in 32-bit range the
`int64_t` sum cannot wrap, so plain integers are exact). -/
def output_alsa_add (a b : Int) : Int :=
  let sum := a + b
  if sum > 0x7FFFFFFF then 0x7FFFFFFF
  else if sum < -0x80000000 then -0x80000000
  else sum

/-- The `out_size` accumulation of `output_alsa_mix_streams` (output_alsa.c
lines 538-621) over the per-stream contribution sizes of one mixing pass:
streams whose `cache_read` returned `in_size <= 0` are skipped by `continue`;
for every contributing stream the source executes `if(out_size < in_size);
out_size = in_size;` — the stray semicolon terminates the guard, so the
assignment is unconditional. -/
def output_alsa_mix_out_size (contribs : List Int) : Int :=
  contribs.foldl (fun out_size in_size => if in_size ≤ 0 then out_size else in_size) 0

/-- Stream events surfaced by the mixer loop (claim C8 concerns the buffering
pair; `STREAM_EVENT_END` belongs to the end-of-stream path outside this
claim's scope). -/
inductive stream_event where
  | buffering
  | ready
  deriving DecidableEq, Repr

/-- One mixer-loop visit to a stream (output_alsa.c lines 550-593), restricted
to the delivering/underflow alternatives (`cache_read` result `n ≥ 0`): on an
underflow with `delay > 0`, `STREAM_EVENT_BUFFERING` is emitted iff the
callback is set and the stream was not already marked buffering, and the
`buffering` flag is set; on delivered data, if `delay > 0` and the stream was
buffering, `STREAM_EVENT_READY` is emitted (when the callback is set) and the
flag is cleared.  Returns the new `buffering` flag and the events emitted. -/
def mix_stream_step (delay : Nat) (has_cb buffering : Bool) (n : Nat) :
    Bool × List stream_event :=
  if n = 0 then
    if 0 < delay then
      (true, if has_cb = true ∧ buffering = false then [stream_event.buffering] else [])
    else (buffering, [])
  else
    if 0 < delay ∧ buffering = true then
      (false, if has_cb = true then [stream_event.ready] else [])
    else (buffering, [])

/-- Event trace of a stream across a sequence of mixer-loop iterations whose
`cache_read` results are `ns` (all nonnegative), starting from `buffering`
flag `b` (a fresh stream starts at `b = false`, output_alsa.c line 187). -/
def mix_stream_events (delay : Nat) (has_cb b : Bool) : List Nat → List stream_event
  | [] => []
  | n :: ns =>
      (mix_stream_step delay has_cb b n).2 ++
        mix_stream_events delay has_cb (mix_stream_step delay has_cb b n).1 ns

/-- Specification-side count of transitions from delivering data to underflow
in a read-result sequence: positions whose result is 0 and whose predecessor
was nonzero.  `prevZero` says whether the preceding read returned 0; a fresh
stream starts with `prevZero = false` (the stream counts as delivering until
its first underflow). -/
def underflowEdges (prevZero : Bool) : List Nat → Nat
  | [] => 0
  | n :: ns =>
      (if n = 0 ∧ prevZero = false then 1 else 0) +
        underflowEdges (decide (n = 0)) ns

/-- Specification-side count of transitions from underflow back to delivering
data: positions whose result is nonzero and whose predecessor returned 0. -/
def refillEdges (prevZero : Bool) : List Nat → Nat
  | [] => 0
  | n :: ns =>
      (if n ≠ 0 ∧ prevZero = true then 1 else 0) +
        refillEdges (decide (n = 0)) ns

/-- Alternation predicate on event traces: from state `b` (true = currently
buffering) the trace must alternate `buffering, ready, buffering, ready, ...`
with a `buffering` admissible only when not already buffering and a `ready`
only when buffering. -/
def eventsAlternate : Bool → List stream_event → Prop
  | _, [] => True
  | b, stream_event.buffering :: es => b = false ∧ eventsAlternate true es
  | b, stream_event.ready :: es => b = true ∧ eventsAlternate false es

/-!
Concrete cache states used by counterexamples and witnesses.
-/

/-- A threaded-mode cache still filling toward its high-water mark (2 of 4
frames buffered, one format segment, not ready). -/
def exThreadFilling : cache_handle :=
  { use_thread := true, size := 4, data := [1, 2], len := 2, is_ready := false,
    fmts := [⟨⟨44100, 2⟩, 0⟩], fmt_len := 2, input_locked := false, hw := false }

/-- A pull-mode cache that has reached its high-water mark, drained to 2 of 4
frames, with the producer lock free. -/
def exPullReady : cache_handle :=
  { use_thread := false, size := 4, data := [1, 2], len := 2, is_ready := true,
    fmts := [⟨⟨44100, 2⟩, 0⟩], fmt_len := 2, input_locked := false, hw := true }

/-!
Theorems.
-/

/-- C2: the claim says `out_size` is updated as `max(out_size,
contribution_size)` across the contributing streams.  The source
(output_alsa.c lines 618-620) guards the assignment with `if(out_size <
in_size);` whose stray semicolon makes the guard an empty statement, so the
assignment is unconditional and one mixing pass over contributions 5 then 3
returns 3 — the last contributor's size — instead of the maximum 5. -/
theorem C2_out_size_is_last_not_max :
    output_alsa_mix_out_size [5, 3] = 3 ∧ output_alsa_mix_out_size [5, 3] ≠ max 5 3 := by
  decide

/-- C3 counterexample: with samplerate 44100, channels 2 and K = 1 ms,
`restore_stream` stores `1 * 44100 * 2 / 1000 = 88` raw samples and
`get_status(PLAYED)` reports `88 * 1000 / 44100 / 2 = 0`, not 1, so the
round trip is not the identity for every K. -/
theorem C3_counterexample :
    output_alsa_get_status_played 44100 2 (output_alsa_restore_stream 44100 2 1) = 0 ∧
    (0 : Nat) ≠ 1 := by
  decide

/-- C3 (amended): the restore/report round trip returns exactly K whenever
the ms-to-samples conversion is exact, i.e. 1000 divides K * samplerate *
channels and the product does not overflow the 64-bit counter. -/
theorem C3_round_trip_exact :
    ∀ samplerate channels value : Nat, 0 < samplerate → 0 < channels →
    1000 ∣ value * samplerate * channels → value * samplerate * channels < 2 ^ 64 →
    output_alsa_get_status_played samplerate channels
      (output_alsa_restore_stream samplerate channels value) = value := by
  intro sr ch v hsr hch hdvd hlt
  have hle : v * sr ≤ v * sr * ch := Nat.le_mul_of_pos_right _ hch
  unfold output_alsa_restore_stream output_alsa_get_status_played
  rw [Nat.mod_eq_of_lt (lt_of_le_of_lt hle hlt), Nat.mod_eq_of_lt hlt]
  obtain ⟨q, hq⟩ := hdvd
  rw [hq, Nat.mul_div_cancel_left q (by norm_num)]
  have hq2 : q * 1000 = v * sr * ch := by omega
  rw [Nat.mod_eq_of_lt (hq2 ▸ hlt), hq2]
  have hrw : v * sr * ch = v * ch * sr := by ring
  rw [hrw, Nat.mul_div_cancel (v * ch) hsr, Nat.mul_div_cancel v hch]

/-- C3 witness: K = 100 ms at 44100 Hz stereo round-trips exactly. -/
theorem C3_round_trip_witness :
    (0 < 44100 ∧ 0 < 2 ∧ 1000 ∣ 100 * 44100 * 2 ∧ 100 * 44100 * 2 < 2 ^ 64) ∧
    output_alsa_get_status_played 44100 2
      (output_alsa_restore_stream 44100 2 100) = 100 :=
  ⟨⟨by norm_num, by norm_num, by norm_num, by norm_num⟩,
   C3_round_trip_exact 44100 2 100 (by norm_num) (by norm_num) (by norm_num)
     (by norm_num)⟩

/-- C5: in integer mode the vol-scale/saturating-add combination always lands
in [INT32_MIN, INT32_MAX], and two full-volume streams whose samples are both
INT32_MAX mix to exactly INT32_MAX (the sum saturates instead of
overflowing).  `vmax` is `OUTPUT_VOLUME_MAX` (its numeric value lives in a
header not under src/; the source only requires it to be a positive
divisor). -/
theorem C5_mixer_saturation :
    ∀ vmax a b v1 v2 : Int, 0 < vmax →
    (-0x80000000 ≤ output_alsa_add (output_alsa_vol a v1 vmax) (output_alsa_vol b v2 vmax) ∧
      output_alsa_add (output_alsa_vol a v1 vmax) (output_alsa_vol b v2 vmax) ≤ 0x7FFFFFFF) ∧
    output_alsa_add (output_alsa_vol 0x7FFFFFFF vmax vmax)
        (output_alsa_vol 0x7FFFFFFF vmax vmax) = 0x7FFFFFFF := by
  intro vmax a b v1 v2 hv
  have hclamp : ∀ x y : Int,
      -0x80000000 ≤ output_alsa_add x y ∧ output_alsa_add x y ≤ 0x7FFFFFFF := by
    intro x y
    unfold output_alsa_add
    dsimp only
    split_ifs <;> omega
  refine ⟨hclamp _ _, ?_⟩
  have hid : output_alsa_vol 0x7FFFFFFF vmax vmax = 0x7FFFFFFF := by
    unfold output_alsa_vol
    exact Int.mul_tdiv_cancel _ (ne_of_gt hv)
  rw [hid]
  unfold output_alsa_add
  norm_num

/-- C5 witness at OUTPUT_VOLUME_MAX = 65535 and a pair of ordinary samples. -/
theorem C5_mixer_saturation_witness :
    (0 : Int) < 65535 ∧
    ((-0x80000000 ≤ output_alsa_add (output_alsa_vol 5 100 65535) (output_alsa_vol (-7) 65535 65535) ∧
       output_alsa_add (output_alsa_vol 5 100 65535) (output_alsa_vol (-7) 65535 65535) ≤ 0x7FFFFFFF) ∧
     output_alsa_add (output_alsa_vol 0x7FFFFFFF 65535 65535)
         (output_alsa_vol 0x7FFFFFFF 65535 65535) = 0x7FFFFFFF) :=
  ⟨by decide, C5_mixer_saturation 65535 5 (-7) 100 65535 (by decide)⟩

/-- C6: in threaded mode a `cache_read` entered while `is_ready` is false
copies no frames, writes no format, leaves the whole cache state (in
particular `len`, the format list and `fmt_len`) unchanged, and returns 0
(cache.c lines 279, 318-319; the pull-mode refill at lines 324-356 is skipped
because `use_thread` is set). -/
theorem C6_not_ready_returns_zero :
    ∀ (h : cache_handle) (req : Nat) (cbRet : Int) (cbData : List Int)
      (cbFmt : a_format),
    h.use_thread = true → h.is_ready = false →
    cache_read h req cbRet cbData cbFmt =
      { cache := h, ret := 0, out_fmt := none, taken := [] } := by
  intro h req cbRet cbData cbFmt hut hnr
  simp [cache_read, cache_read_core, hut, hnr]

/-- C6 witness: a concrete threaded, still-filling cache returns 0 and is
untouched. -/
theorem C6_not_ready_witness :
    (exThreadFilling.use_thread = true ∧ exThreadFilling.is_ready = false) ∧
    cache_read exThreadFilling 3 0 [] A_FORMAT_INIT =
      { cache := exThreadFilling, ret := 0, out_fmt := none, taken := [] } :=
  ⟨by decide, C6_not_ready_returns_zero exThreadFilling 3 0 [] A_FORMAT_INIT rfl rfl⟩

/-- C10: once `abort_stream` has set the abort flag (output_alsa.c lines
397-399, and nothing ever clears it), every subsequent `write_stream` returns
0 without invoking `resample_write` (output_alsa.c lines 277-279): the
resampler state — and hence everything it feeds, including the stream's cache
— and the stream record itself are returned unchanged, so the same holds for
all later calls. -/
theorem C10_write_after_abort :
    ∀ (ρ : Type) (resample_write : ρ → List Int → a_format → ρ × Int)
      (s : output_stream) (res : ρ) (buf : List Int) (fmt : a_format),
    output_alsa_write_stream resample_write (output_alsa_abort_stream s) res buf fmt =
      (output_alsa_abort_stream s, res, 0) := by
  intro ρ rw1 s res buf fmt
  simp [output_alsa_write_stream, output_alsa_abort_stream]

/-- The locked consumer section never touches `use_thread`. -/
theorem cache_read_core_use_thread (h : cache_handle) (req : Nat) :
    (cache_read_core h req).cache.use_thread = h.use_thread := by
  unfold cache_read_core
  split <;> rfl

/-- The locked consumer section never touches `input_lock`. -/
theorem cache_read_core_input_locked (h : cache_handle) (req : Nat) :
    (cache_read_core h req).cache.input_locked = h.input_locked := by
  unfold cache_read_core
  split <;> rfl

/-- The locked consumer section never touches the capacity. -/
theorem cache_read_core_size (h : cache_handle) (req : Nat) :
    (cache_read_core h req).cache.size = h.size := by
  unfold cache_read_core
  split <;> rfl

/-- C7: in pull mode, when the try-acquire of `input_lock` succeeds (the lock
was free) and the input callback returns a negative value during the
opportunistic refill, `cache_read` returns -1 exactly when the cache is empty
at that instant (`len == 0` after the in-call consume, cache.c lines
335-340), and otherwise returns the number of frames this call read out of
the cache, which were already copied to the caller's buffer. -/
theorem C7_pull_mode_eos :
    ∀ (h : cache_handle) (req : Nat) (cbRet : Int) (cbData : List Int)
      (cbFmt : a_format),
    h.use_thread = false → h.input_locked = false → cbRet < 0 →
    (cache_read_core h req).cache.len < (cache_read_core h req).cache.size →
    ((cache_read h req cbRet cbData cbFmt).ret = -1 ↔
      (cache_read_core h req).cache.len = 0) ∧
    ((cache_read_core h req).cache.len ≠ 0 →
      (cache_read h req cbRet cbData cbFmt).ret = ((cache_read_core h req).nread : Int) ∧
      (cache_read h req cbRet cbData cbFmt).taken = (cache_read_core h req).taken) := by
  intro h req cbRet cbData cbFmt hut hlock hneg hsp
  have h1 : (cache_read_core h req).cache.use_thread = false := by
    rw [cache_read_core_use_thread]; exact hut
  have h2 : ¬ ((cache_read_core h req).cache.input_locked = true) := by
    rw [cache_read_core_input_locked, hlock]; exact Bool.false_ne_true
  unfold cache_read
  rw [if_pos ⟨h1, hsp⟩, if_neg h2, if_pos hneg]
  by_cases hz : (cache_read_core h req).cache.len = 0
  · rw [if_pos hz]
    refine ⟨by simp [hz], fun hcon => absurd hz hcon⟩
  · rw [if_neg hz]
    dsimp only
    refine ⟨⟨fun hr => absurd hr (by omega), fun hcon => absurd hcon hz⟩,
      fun _ => ⟨rfl, rfl⟩⟩

/-- C7 witness: a concrete ready pull-mode cache holding 2 frames, asked for
1 frame when the callback reports end-of-stream: 1 frame remains, so the call
returns the 1 frame it read rather than -1. -/
theorem C7_pull_mode_eos_witness :
    (exPullReady.use_thread = false ∧ exPullReady.input_locked = false ∧
      (-1 : Int) < 0 ∧
      (cache_read_core exPullReady 1).cache.len < (cache_read_core exPullReady 1).cache.size) ∧
    ((cache_read exPullReady 1 (-1) [] A_FORMAT_INIT).ret = -1 ↔
      (cache_read_core exPullReady 1).cache.len = 0) :=
  ⟨by decide,
   (C7_pull_mode_eos exPullReady 1 (-1) [] A_FORMAT_INIT rfl rfl (by decide)
      (by decide)).1⟩

/-- C9 counterexample: the claim says `input_lock` is released before return
on every refill path where the try-acquire succeeded, including the
negative-callback paths.  On the concrete pull-mode cache `exPullReady`
(lock free, 2 frames buffered) a read of 1 frame whose callback then returns
-1 leaves `input_lock` held at return (cache.c lines 335-340 return without
`cache_unlock`), contradicting the claim. -/
theorem C9_lock_leak_counterexample :
    (cache_read exPullReady 1 (-1) [] A_FORMAT_INIT).cache.input_locked = true ∧
    ¬ ((cache_read exPullReady 1 (-1) [] A_FORMAT_INIT).cache.input_locked = false) := by
  decide

/-- C9 (amended): on every pull-mode refill path where the try-acquire of
`input_lock` succeeds, the lock is released before `cache_read` returns if
the input callback returns a nonnegative value; when the callback returns a
negative value the lock remains held at return (the producer stays frozen
after end-of-stream; `cache_close` compensates by unlocking unconditionally,
cache.c line 412). -/
theorem C9_lock_release :
    ∀ (h : cache_handle) (req : Nat) (cbRet : Int) (cbData : List Int)
      (cbFmt : a_format),
    h.use_thread = false → h.input_locked = false →
    (cache_read_core h req).cache.len < (cache_read_core h req).cache.size →
    (0 ≤ cbRet → (cache_read h req cbRet cbData cbFmt).cache.input_locked = false) ∧
    (cbRet < 0 → (cache_read h req cbRet cbData cbFmt).cache.input_locked = true) := by
  intro h req cbRet cbData cbFmt hut hlock hsp
  have h1 : (cache_read_core h req).cache.use_thread = false := by
    rw [cache_read_core_use_thread]; exact hut
  have h2 : ¬ ((cache_read_core h req).cache.input_locked = true) := by
    rw [cache_read_core_input_locked, hlock]; exact Bool.false_ne_true
  unfold cache_read
  rw [if_pos ⟨h1, hsp⟩, if_neg h2]
  constructor
  · intro hnn
    rw [if_neg (by omega)]
  · intro hneg
    rw [if_pos hneg]
    by_cases hz : (cache_read_core h req).cache.len = 0
    · rw [if_pos hz]
    · rw [if_neg hz]

/-- The ready/high-water iff is stable under growing the buffer. -/
theorem ready_iff_mono {r w : Bool} {len1 len2 : Nat}
    (hiff : r = true ↔ 0 < len1 ∧ w = true) (hw : w = true → 0 < len1)
    (hle : len1 ≤ len2) : r = true ↔ 0 < len2 ∧ w = true := by
  cases w
  · simp only [Bool.false_eq_true, and_false] at hiff ⊢
    exact hiff
  · have h0 := hw rfl
    constructor
    · intro _
      exact ⟨by omega, rfl⟩
    · intro _
      exact hiff.mpr ⟨h0, rfl⟩

/-- The ready/high-water iff holds after a read that clears both bits exactly
when the buffer drained to empty. -/
theorem ready_iff_drain {r w : Bool} {len1 : Nat} (hr : r = true) (hw : w = true) :
    ((if len1 = 0 then false else r) = true ↔
      0 < len1 ∧ (if len1 = 0 then false else w) = true) := by
  by_cases h0 : len1 = 0
  · simp [h0]
  · simp [h0, hr, hw]
    omega

/-- The drained high-water bit still implies a nonempty buffer. -/
theorem hw_drain {w : Bool} {len1 : Nat} :
    (if len1 = 0 then false else w) = true → 0 < len1 := by
  by_cases h0 : len1 = 0 <;> simp [h0]
  omega

/-- A producer batch delivery preserves the strengthened cache invariant. -/
theorem cache_produce_inv (h : cache_handle) (input : List Int) (f : a_format)
    (hI : cacheInvFull h) : cacheInvFull (cache_produce h input f) := by
  obtain ⟨hsz, ⟨hls, hrdy, hsum⟩, hhead, hemp, hhw⟩ := hI
  have hk : min (h.size - h.len) input.length ≤ h.size - h.len :=
    Nat.min_le_left _ _
  unfold cache_produce cache_put_format
  dsimp only
  unfold cacheInvFull claimedCacheInv
  split_ifs with hc hful hful <;> dsimp only at *
  · -- new segment appended, cache became full
    refine ⟨hsz, ⟨by omega, ?_, ?_⟩, ?_, by simp, fun _ => by omega⟩
    · exact ⟨fun _ => ⟨by omega, rfl⟩, fun _ => rfl⟩
    · simp only [cache_segSum, List.map_append, List.sum_append, List.map_cons,
        List.sum_cons, List.map_nil, List.sum_nil]
      simp only [cache_segSum] at hsum
      omega
    · intro f2 hf2
      rcases hfm : h.fmts with _ | ⟨a, t⟩
      · rw [hfm] at hf2
        simp at hf2
        rw [← hf2]
        exact hemp hfm
      · rw [hfm] at hf2
        simp at hf2
        exact hhead f2 (by rw [hfm, List.head?_cons, hf2])
  · -- new segment appended, cache not full
    refine ⟨hsz, ⟨by omega, ?_, ?_⟩, ?_, by simp, ?_⟩
    · exact ready_iff_mono hrdy hhw (Nat.le_add_right _ _)
    · simp only [cache_segSum, List.map_append, List.sum_append, List.map_cons,
        List.sum_cons, List.map_nil, List.sum_nil]
      simp only [cache_segSum] at hsum
      omega
    · intro f2 hf2
      rcases hfm : h.fmts with _ | ⟨a, t⟩
      · rw [hfm] at hf2
        simp at hf2
        rw [← hf2]
        exact hemp hfm
      · rw [hfm] at hf2
        simp at hf2
        exact hhead f2 (by rw [hfm, List.head?_cons, hf2])
    · intro hwt
      have := hhw hwt
      omega
  · -- no new segment, cache became full
    refine ⟨hsz, ⟨by omega, ?_, ?_⟩, hhead, ?_, fun _ => by omega⟩
    · exact ⟨fun _ => ⟨by omega, rfl⟩, fun _ => rfl⟩
    · simp only [cache_segSum] at hsum ⊢
      omega
    · intro hfm
      exfalso
      apply hc
      simp [cache_need_new_fmt, hfm]
  · -- no new segment, cache not full
    refine ⟨hsz, ⟨by omega, ?_, ?_⟩, hhead, ?_, ?_⟩
    · exact ready_iff_mono hrdy hhw (Nat.le_add_right _ _)
    · simp only [cache_segSum] at hsum ⊢
      omega
    · intro hfm
      exfalso
      apply hc
      simp [cache_need_new_fmt, hfm]
    · intro hwt
      have := hhw hwt
      omega

/-- The locked consumer section preserves the strengthened cache invariant. -/
theorem cache_read_core_inv (h : cache_handle) (req : Nat)
    (hI : cacheInvFull h) : cacheInvFull (cache_read_core h req).cache := by
  obtain ⟨hsz, ⟨hls, hrdy, hsum⟩, hhead, hemp, hhw⟩ := hI
  unfold cache_read_core
  by_cases hr : h.is_ready = true
  · have hpos := hrdy.mp hr
    rw [if_pos hr]
    rcases hfm : h.fmts with _ | ⟨f1, rest⟩
    · exfalso
      have h0 : cache_segSum h = 0 := by simp [cache_segSum, hfm]
      have h1 := hemp hfm
      omega
    · have hf1 : f1.len = 0 := hhead f1 (by rw [hfm, List.head?_cons])
      rcases rest with _ | ⟨f2, rest2⟩
      · -- single segment
        have hseg : f1.len + h.fmt_len = h.len := by
          simpa [cache_segSum, hfm] using hsum
        simp only [hfm]
        unfold cacheInvFull claimedCacheInv
        dsimp only
        split_ifs with h0 <;>
          refine ⟨hsz, ⟨by omega, ?_, ?_⟩, ?_, by simp,
            by intro hcon; first | simp at hcon | omega⟩
        · simp
        · simp only [cache_segSum, List.map_cons, List.sum_cons, List.map_nil,
            List.sum_nil]
          omega
        · simp [hf1]
        · exact ⟨fun _ => ⟨by omega, hpos.2⟩, fun _ => hr⟩
        · simp only [cache_segSum, List.map_cons, List.sum_cons, List.map_nil,
            List.sum_nil]
          omega
        · simp [hf1]
      · -- at least two segments
        have hseg : f1.len + (f2.len + (rest2.map cache_format.len).sum) + h.fmt_len = h.len := by
          simpa [cache_segSum, hfm] using hsum
        simp only [hfm]
        unfold cacheInvFull claimedCacheInv
        dsimp only
        split_ifs with hdrop h0 h0 <;>
          refine ⟨hsz, ⟨by omega, ?_, ?_⟩, ?_, by simp,
            by intro hcon; first | simp at hcon | omega⟩
        · simp
        · simp only [cache_segSum, List.map_cons, List.sum_cons]
          omega
        · simp
        · exact ⟨fun _ => ⟨by omega, hpos.2⟩, fun _ => hr⟩
        · simp only [cache_segSum, List.map_cons, List.sum_cons]
          omega
        · simp
        · simp
        · simp only [cache_segSum, List.map_cons, List.sum_cons]
          omega
        · simp [hf1]
        · exact ⟨fun _ => ⟨by omega, hpos.2⟩, fun _ => hr⟩
        · simp only [cache_segSum, List.map_cons, List.sum_cons]
          omega
        · simp [hf1]
  · rw [if_neg hr]
    exact ⟨hsz, ⟨hls, hrdy, hsum⟩, hhead, hemp, hhw⟩

/-- A full `cache_read` call (either mode, any callback outcome) preserves
the strengthened cache invariant. -/
theorem cache_read_inv (h : cache_handle) (req : Nat) (cbRet : Int)
    (cbData : List Int) (cbFmt : a_format) (hI : cacheInvFull h) :
    cacheInvFull (cache_read h req cbRet cbData cbFmt).cache := by
  have hc := cache_read_core_inv h req hI
  unfold cache_read
  dsimp only
  by_cases hp : (cache_read_core h req).cache.use_thread = false ∧
      (cache_read_core h req).cache.len < (cache_read_core h req).cache.size
  · rw [if_pos hp]
    by_cases hl : (cache_read_core h req).cache.input_locked = true
    · rw [if_pos hl]
      exact hc
    · rw [if_neg hl]
      by_cases hneg : cbRet < 0
      · rw [if_pos hneg]
        by_cases hz : (cache_read_core h req).cache.len = 0
        · rw [if_pos hz]
          exact hc
        · rw [if_neg hz]
          exact hc
      · rw [if_neg hneg]
        exact cache_produce_inv _ _ _ hc
  · rw [if_neg hp]
    exact hc

/-- `cache_flush` preserves the strengthened cache invariant when invoked at
an instant where `fmt_len = 0`. -/
theorem cache_flush_inv (h : cache_handle) (hI : cacheInvFull h)
    (hf0 : h.fmt_len = 0) : cacheInvFull (cache_flush h) := by
  obtain ⟨hsz, _, _, _, _⟩ := hI
  refine ⟨hsz, ⟨by simp [cache_flush], ?_, ?_⟩, by simp [cache_flush],
    fun _ => hf0, by simp [cache_flush]⟩
  · simp [cache_flush]
  · simp [cache_flush, cache_segSum, hf0]

/-- Every state reachable with the flush restriction satisfies the
strengthened invariant. -/
theorem cacheReach_inv : ∀ h : cache_handle, cacheReach h → cacheInvFull h := by
  intro h hr
  induction hr with
  | init size h0 ut =>
      refine ⟨h0, ⟨?_, ?_, ?_⟩, ?_, ?_, ?_⟩ <;>
        simp [cache_open, cache_segSum]
  | produce input f _ ih => exact cache_produce_inv _ input f ih
  | read req cbRet cbData cbFmt _ ih => exact cache_read_inv _ req cbRet cbData cbFmt ih
  | flush _ hf ih => exact cache_flush_inv _ ih hf

/-- C4 counterexample: the claimed conjunction is not maintained by every
cache operation.  From a fresh cache of capacity 4, deliver one 2-frame batch
(`fmt_len = 2`) and flush: `cache_flush` zeroes `len` and frees the format
list but leaves `fmt_len` untouched (cache.c lines 361-390 never reset it),
so the reachable post-flush state has segment-sum + `fmt_len` = 2 ≠ 0 =
`len`, violating the third conjunct. -/
theorem C4_flush_breaks_invariant :
    cacheReachCode (cache_flush (cache_produce (cache_open 4 true) [1, 2] ⟨44100, 2⟩)) ∧
    ¬ claimedCacheInv (cache_flush (cache_produce (cache_open 4 true) [1, 2] ⟨44100, 2⟩)) :=
  ⟨cacheReachCode.flush
      (cacheReachCode.produce [1, 2] ⟨44100, 2⟩ (cacheReachCode.init 4 (by decide) true)),
   by decide⟩

/-- C4 (amended): producer batch appends and `cache_read` (either mode, any
callback outcome) preserve the claimed conjunction — `len ≤ size`,
`is_ready` iff (`len > 0` and the high-water mark was reached since the last
drain to empty), and segment-length sum plus `fmt_len` equals `len` — and so
does `cache_flush` when invoked with `fmt_len = 0`; i.e. the conjunction
holds in every state reachable when flushes are restricted to such instants
(without the restriction the conjunction fails, see the counterexample). -/
theorem C4_invariants_hold :
    ∀ h : cache_handle, cacheReach h → claimedCacheInv h :=
  fun h hr => (cacheReach_inv h hr).2.1

/-- C4 witness: the invariant conjunction at a concrete reachable state (one
producer batch into a fresh cache of capacity 4). -/
theorem C4_invariants_witness :
    cacheReach (cache_produce (cache_open 4 true) [1, 2] ⟨44100, 2⟩) ∧
    claimedCacheInv (cache_produce (cache_open 4 true) [1, 2] ⟨44100, 2⟩) :=
  ⟨cacheReach.produce [1, 2] ⟨44100, 2⟩ (cacheReach.init 4 (by decide) true),
   C4_invariants_hold _
     (cacheReach.produce [1, 2] ⟨44100, 2⟩ (cacheReach.init 4 (by decide) true))⟩

/-- BUFFERING events in the mixer trace count exactly the
delivering-to-underflow transitions, with the flag tracking whether the
previous read underflowed. -/
theorem mix_count_buffering (delay : Nat) (hd : 0 < delay) :
    ∀ (ns : List Nat) (b : Bool),
    (mix_stream_events delay true b ns).count stream_event.buffering =
      underflowEdges b ns := by
  intro ns
  induction ns with
  | nil => intro b; rfl
  | cons n ns ih =>
      intro b
      unfold mix_stream_events mix_stream_step underflowEdges
      by_cases hn : n = 0
      · cases b <;>
          simp [hn, hd, ih, List.count_cons, List.count_append] <;> omega
      · cases b <;>
          simp [hn, hd, ih, List.count_cons, List.count_append] <;> omega

/-- READY events in the mixer trace count exactly the
underflow-to-delivering transitions. -/
theorem mix_count_ready (delay : Nat) (hd : 0 < delay) :
    ∀ (ns : List Nat) (b : Bool),
    (mix_stream_events delay true b ns).count stream_event.ready =
      refillEdges b ns := by
  intro ns
  induction ns with
  | nil => intro b; rfl
  | cons n ns ih =>
      intro b
      unfold mix_stream_events mix_stream_step refillEdges
      by_cases hn : n = 0
      · cases b <;>
          simp [hn, hd, ih, List.count_cons, List.count_append] <;> omega
      · cases b <;>
          simp [hn, hd, ih, List.count_cons, List.count_append] <;> omega

/-- The mixer's event trace alternates between BUFFERING and READY relative
to the running buffering flag. -/
theorem mix_events_alternate (delay : Nat) (hd : 0 < delay) :
    ∀ (ns : List Nat) (b : Bool),
    eventsAlternate b (mix_stream_events delay true b ns) := by
  intro ns
  induction ns with
  | nil => intro b; trivial
  | cons n ns ih =>
      intro b
      unfold mix_stream_events mix_stream_step
      by_cases hn : n = 0
      · cases b <;> simp [hn, hd, eventsAlternate] <;> exact ih _
      · cases b <;> simp [hn, hd, eventsAlternate] <;> exact ih _

/-- In an alternating trace currently in the buffering state, a READY occurs
before the next BUFFERING. -/
theorem alternate_ready_before (mid r : List stream_event)
    (h : eventsAlternate true (mid ++ stream_event.buffering :: r)) :
    stream_event.ready ∈ mid := by
  cases mid with
  | nil => exact absurd h.1 (by simp)
  | cons e mid2 =>
      cases e with
      | buffering => exact absurd h.1 (by simp)
      | ready => simp

/-- In an alternating trace, two BUFFERING events always have a READY
strictly between them. -/
theorem alternate_no_double_buffering :
    ∀ (l : List stream_event) (b : Bool) (mid r : List stream_event),
    eventsAlternate b (l ++ stream_event.buffering :: (mid ++ stream_event.buffering :: r)) →
    stream_event.ready ∈ mid := by
  intro l
  induction l with
  | nil =>
      intro b mid r h
      exact alternate_ready_before mid r h.2
  | cons e l2 ih =>
      intro b mid r h
      cases e with
      | buffering => exact ih true mid r h.2
      | ready => exact ih false mid r h.2

/-- C8: for a stream with `delay_ms > 0` (and an event callback installed),
along any sequence of mixer-loop iterations whose `cache_read` results are
the nonnegative frame counts `ns`, the trace emits exactly one BUFFERING per
transition from delivering data to an underflow (a 0 result whose predecessor
was nonzero, the stream starting in the delivering state), exactly one READY
per transition back to delivering data, and between any two BUFFERING events
there is always an intervening READY. -/
theorem C8_buffering_edges :
    ∀ (delay : Nat) (ns : List Nat), 0 < delay →
    (mix_stream_events delay true false ns).count stream_event.buffering =
        underflowEdges false ns ∧
    (mix_stream_events delay true false ns).count stream_event.ready =
        refillEdges false ns ∧
    ∀ (l mid r : List stream_event),
      mix_stream_events delay true false ns =
        l ++ stream_event.buffering :: (mid ++ stream_event.buffering :: r) →
      stream_event.ready ∈ mid := by
  intro delay ns hd
  refine ⟨mix_count_buffering delay hd ns false,
    mix_count_ready delay hd ns false, fun l mid r he => ?_⟩
  exact alternate_no_double_buffering l false mid r
    (he ▸ mix_events_alternate delay hd ns false)

/-- C8 witness: the read sequence 2,0,0,3,0 has two underflow edges and one
refill edge, and the trace counts agree. -/
theorem C8_buffering_edges_witness :
    (0 < 1 ∧ underflowEdges false [2, 0, 0, 3, 0] = 2 ∧
      refillEdges false [2, 0, 0, 3, 0] = 1) ∧
    (mix_stream_events 1 true false [2, 0, 0, 3, 0]).count stream_event.buffering =
      underflowEdges false [2, 0, 0, 3, 0] :=
  ⟨by decide, (C8_buffering_edges 1 [2, 0, 0, 3, 0] (by decide)).1⟩

/-- C9 witness for the amended claim: on the same concrete cache, a
successful refill (callback returns 3 frames) releases the lock. -/
theorem C9_lock_release_witness :
    (exPullReady.use_thread = false ∧ exPullReady.input_locked = false ∧
      (cache_read_core exPullReady 1).cache.len < (cache_read_core exPullReady 1).cache.size ∧
      (0 : Int) ≤ 3) ∧
    (cache_read exPullReady 1 3 [7, 8, 9] A_FORMAT_INIT).cache.input_locked = false :=
  ⟨by decide,
   (C9_lock_release exPullReady 1 3 [7, 8, 9] A_FORMAT_INIT rfl rfl (by decide)).1
     (by decide)⟩

/-- Producing N1 frames of format A into a fresh threaded cache of capacity
N1 + N2 and then N2 frames of a different nontrivial format B yields a full,
ready cache whose segment list is [A at offset 0, B at offset N1] with
`fmt_len = N2`. -/
theorem produce_two_formats (cap N1 N2 : Nat) (d1 d2 : List Int)
    (A B : a_format) (h1 : d1.length = N1) (h2 : d2.length = N2)
    (hN1 : 1 ≤ N1) (hN2 : 1 ≤ N2) (hcap : N1 + N2 = cap)
    (hBnt : B.samplerate ≠ 0 ∨ B.channels ≠ 0) (hAB : format_cmp B A ≠ 0) :
    cache_produce (cache_produce (cache_open cap true) d1 A) d2 B =
      { use_thread := true, size := cap, data := d1 ++ d2, len := cap,
        is_ready := true, fmts := [⟨A, 0⟩, ⟨B, N1⟩], fmt_len := N2,
        input_locked := false, hw := true } := by
  have htake1 : d1.take N1 = d1 := by
    rw [← h1]
    exact List.take_length (l := d1)
  have htake2 : d2.take N2 = d2 := by
    rw [← h2]
    exact List.take_length (l := d2)
  have hmin1 : cap ⊓ d1.length = N1 := by
    rw [h1]; omega
  have hne1 : ¬ (N1 = cap) := by omega
  have e1 : cache_produce (cache_open cap true) d1 A =
      { use_thread := true, size := cap, data := d1, len := N1,
        is_ready := false, fmts := [⟨A, 0⟩], fmt_len := N1,
        input_locked := false, hw := false } := by
    simp [cache_produce, cache_open, cache_need_new_fmt, cache_put_format,
      hmin1, htake1, hne1]
  rw [e1]
  have hmin2 : (cap - N1) ⊓ d2.length = N2 := by
    rw [h2]; omega
  simp [cache_produce, cache_need_new_fmt, cache_put_format, hmin2, htake2,
    hcap, hBnt, hAB]

/-- C1: a cache whose producer delivered N1 frames under format A and then
N2 frames under a different nontrivial format B, and which reached its ready
threshold, serves a single `cache_read` asking for more than N1 frames with
exactly N1 frames (the first N1 produced) and `out_fmt = A`; the following
`cache_read` returns up to N2 frames (`min req2 N2`, the remaining frames)
with `out_fmt = B`. -/
theorem C1_format_boundary :
    ∀ (cap N1 N2 req1 req2 : Nat) (d1 d2 : List Int) (A B : a_format),
    d1.length = N1 → d2.length = N2 → 1 ≤ N1 → 1 ≤ N2 → N1 + N2 = cap →
    (B.samplerate ≠ 0 ∨ B.channels ≠ 0) → format_cmp B A ≠ 0 → N1 < req1 →
    (cache_read (cache_produce (cache_produce (cache_open cap true) d1 A) d2 B)
        req1 0 [] A_FORMAT_INIT).ret = (N1 : Int) ∧
    (cache_read (cache_produce (cache_produce (cache_open cap true) d1 A) d2 B)
        req1 0 [] A_FORMAT_INIT).out_fmt = some A ∧
    (cache_read (cache_produce (cache_produce (cache_open cap true) d1 A) d2 B)
        req1 0 [] A_FORMAT_INIT).taken = d1 ∧
    (cache_read (cache_read (cache_produce (cache_produce (cache_open cap true) d1 A) d2 B)
          req1 0 [] A_FORMAT_INIT).cache
        req2 0 [] A_FORMAT_INIT).ret = ((min req2 N2 : Nat) : Int) ∧
    (cache_read (cache_read (cache_produce (cache_produce (cache_open cap true) d1 A) d2 B)
          req1 0 [] A_FORMAT_INIT).cache
        req2 0 [] A_FORMAT_INIT).out_fmt = some B ∧
    (cache_read (cache_read (cache_produce (cache_produce (cache_open cap true) d1 A) d2 B)
          req1 0 [] A_FORMAT_INIT).cache
        req2 0 [] A_FORMAT_INIT).taken = d2.take req2 := by
  intro cap N1 N2 req1 req2 d1 d2 A B h1 h2 hN1 hN2 hcap hBnt hAB hreq
  rw [produce_two_formats cap N1 N2 d1 d2 A B h1 h2 hN1 hN2 hcap hBnt hAB]
  have hlt : N1 < min req1 cap := by omega
  have htl : (d1 ++ d2).take N1 = d1 := by
    rw [← h1]
    exact List.take_left d1 d2
  have hdl : (d1 ++ d2).drop N1 = d2 := by
    rw [← h1]
    exact List.drop_left d1 d2
  have hz : ¬ (cap - N1 = 0) := by omega
  have e3 : cache_read
      { use_thread := true, size := cap, data := d1 ++ d2, len := cap,
        is_ready := true, fmts := [⟨A, 0⟩, ⟨B, N1⟩], fmt_len := N2,
        input_locked := false, hw := true } req1 0 [] A_FORMAT_INIT =
      { cache :=
          { use_thread := true, size := cap, data := d2, len := cap - N1,
            is_ready := true, fmts := [⟨B, N1 - N1⟩], fmt_len := N2,
            input_locked := false, hw := true },
        ret := (N1 : Int), out_fmt := some A, taken := d1 } := by
    simp [cache_read, cache_read_core, hlt, htl, hdl, hz]
  rw [e3]
  have hc2 : cap - N1 = N2 := by omega
  have hz2 : N1 - N1 = 0 := by omega
  rw [hc2, hz2]
  have htk : d2.take (min req2 N2) = d2.take req2 := by
    rw [List.take_eq_take]
    rw [h2]
    omega
  refine ⟨rfl, rfl, rfl, ?_, ?_, ?_⟩ <;>
    simp [cache_read, cache_read_core, htk]

/-- C1 witness: 2 frames at (44100,2) then 3 at (48000,2) into a cache of 5;
a read of 4 returns the 2 frames of A, the next read of 7 returns the 3
frames of B. -/
theorem C1_format_boundary_witness :
    (([10, 11] : List Int).length = 2 ∧ ([20, 21, 22] : List Int).length = 3 ∧
      1 ≤ 2 ∧ 1 ≤ 3 ∧ 2 + 3 = 5 ∧
      ((48000 : Nat) ≠ 0 ∨ (2 : Nat) ≠ 0) ∧
      format_cmp ⟨48000, 2⟩ ⟨44100, 2⟩ ≠ 0 ∧ 2 < 4) ∧
    (cache_read (cache_produce (cache_produce (cache_open 5 true) [10, 11] ⟨44100, 2⟩)
        [20, 21, 22] ⟨48000, 2⟩) 4 0 [] A_FORMAT_INIT).ret = (2 : Int) :=
  ⟨⟨rfl, rfl, by decide, by decide, by decide, Or.inl (by decide), by decide,
     by decide⟩,
   (C1_format_boundary 5 2 3 4 7 [10, 11] [20, 21, 22] ⟨44100, 2⟩ ⟨48000, 2⟩
      rfl rfl (by decide) (by decide) (by decide) (Or.inl (by decide))
      (by decide) (by decide)).1⟩

end AirCat
